import Mathlib

/-!
Verification of the snapshot/paging and dedup subsystem of the
G.A.S Text Expander Manager (Google Apps Script backend).

The Lean definitions below are a shallow embedding of the functions in
`src/Code.gs`, `src/uiHandlers.gs` and `src/favorites.gs`:

* JavaScript strings are Lean `String`s; `String(x || '')` on a possibly
  missing field is modelled by storing `""` for a missing field.
* The script cache (`CacheService.getScriptCache()`) is a partial map
  `String → Option String`; TTL expiry is modelled by key absence.
* External services (gzip compression, base64, `JSON.parse`/`stringify`,
  `cache.putAll` success) are parameters of an `Env` record: the code under
  verification never inspects their output except through the branches
  modelled here.
* A thrown JavaScript exception is the `Except.error` case; a function that
  cannot throw returns a plain value.
* Sheet tables are lists of row records (header row implicit); the 1-based
  sheet row number of list index `i` is `i + 2` (row 1 is the header), and
  `sheet.deleteRow r` erases list index `r - 2`.
-/

namespace TEM

/-! ## JavaScript string primitives -/

/-- Whitespace characters recognised by JavaScript `String.prototype.trim`
(ASCII whitespace, NBSP, BOM and the Unicode line separators). -/
def isJsSpace (c : Char) : Bool :=
  c = ' ' ∨ c = '\t' ∨ c = '\n' ∨ c = '\r' ∨
  c = '\x0b' ∨ c = '\x0c' ∨ c = ' ' ∨
  c = ' ' ∨ c = ' ' ∨ c = '﻿'

/-- The character-list form of JavaScript `trim`: drop leading and trailing
whitespace. -/
def trimList (l : List Char) : List Char :=
  ((l.dropWhile isJsSpace).reverse.dropWhile isJsSpace).reverse

/-- JavaScript `String(s).trim()`. -/
def jsTrim (s : String) : String :=
  String.mk (trimList s.data)

/-- JavaScript `s.slice(0, n)` on a string (also `substring(0, n)`):
the first `n` characters. -/
def jsTake (s : String) (n : Nat) : String :=
  String.mk (s.data.take n)

theorem dropWhile_head_false (p : Char → Bool) (l : List Char) :
    ∀ a ∈ (l.dropWhile p).head?, p a = false := by
  induction l with
  | nil => simp [List.dropWhile]
  | cons a t ih =>
    by_cases h : p a
    · simpa [List.dropWhile_cons, h] using ih
    · simp [List.dropWhile_cons, h]

theorem dropWhile_of_head_false (p : Char → Bool) (l : List Char)
    (h : ∀ a ∈ l.head?, p a = false) : l.dropWhile p = l := by
  cases l with
  | nil => rfl
  | cons a t =>
    have : p a = false := h a (by simp)
    simp [List.dropWhile_cons, this]

theorem dropWhile_getLast? (p : Char → Bool) (l : List Char)
    (h : l.dropWhile p ≠ []) : (l.dropWhile p).getLast? = l.getLast? := by
  induction l with
  | nil => simp [List.dropWhile] at h
  | cons a t ih =>
    by_cases hp : p a
    · rw [List.dropWhile_cons] at h ⊢
      simp only [hp, if_true] at h ⊢
      have ht : t ≠ [] := by
        intro he; rw [he] at h; simp [List.dropWhile] at h
      rw [ih h]
      cases t with
      | nil => exact absurd rfl ht
      | cons b t => rw [List.getLast?_cons_cons]
    · simp [List.dropWhile_cons, hp]

theorem trimList_head_false (l : List Char) :
    ∀ a ∈ (trimList l).head?, isJsSpace a = false := by
  intro a ha
  unfold trimList at ha
  rw [List.head?_reverse] at ha
  rcases hd : (l.dropWhile isJsSpace).reverse.dropWhile isJsSpace with _ | ⟨b, t⟩
  · rw [hd] at ha; simp at ha
  · rw [hd] at ha
    have hlast : ((l.dropWhile isJsSpace).reverse).getLast? = some a := by
      rw [← dropWhile_getLast? isJsSpace _ (by rw [hd]; simp), hd, ← ha]
    rw [List.getLast?_reverse] at hlast
    have := dropWhile_head_false isJsSpace l
    exact this a hlast

theorem trimList_getLast_false (l : List Char) :
    ∀ a ∈ (trimList l).getLast?, isJsSpace a = false := by
  intro a ha
  unfold trimList at ha
  rw [List.getLast?_reverse] at ha
  exact dropWhile_head_false isJsSpace _ a ha

/-- JavaScript `trim` is idempotent. -/
theorem trimList_idem (l : List Char) : trimList (trimList l) = trimList l := by
  have h1 : (trimList l).dropWhile isJsSpace = trimList l :=
    dropWhile_of_head_false _ _ (trimList_head_false l)
  have h2 : (trimList l).reverse.dropWhile isJsSpace = (trimList l).reverse := by
    apply dropWhile_of_head_false
    intro a ha
    rw [List.head?_reverse] at ha
    exact trimList_getLast_false l a ha
  calc trimList (trimList l)
      = (((trimList l).dropWhile isJsSpace).reverse.dropWhile isJsSpace).reverse := rfl
    _ = ((trimList l).reverse.dropWhile isJsSpace).reverse := by rw [h1]
    _ = (trimList l).reverse.reverse := by rw [h2]
    _ = trimList l := List.reverse_reverse _

/-- String-level idempotence of `jsTrim`. -/
theorem jsTrim_idem (s : String) : jsTrim (jsTrim s) = jsTrim s := by
  simp [jsTrim, trimList_idem]

/-! ## Chunker (`chunkString_` in Code.gs and the join loop of `readChunksByKey_`) -/

/-- Character-list core of `chunkString_`: the JS loop
`for (let i = 0; i < str.length; i += chunkSize) out.push(str.substring(i, i + chunkSize))`.
The `chunkSize = 0` guard is vacuous for the verified claims (the JS loop
would not terminate there; the code only ever calls it with size 90000). -/
def chunkChars (chunkSize : Nat) (l : List Char) : List (List Char) :=
  if l = [] then []
  else if chunkSize = 0 then []
  else l.take chunkSize :: chunkChars chunkSize (l.drop chunkSize)
termination_by l.length
decreasing_by
  simp only [List.length_drop]
  rcases l with _ | ⟨c, t⟩
  · simp_all
  · simp only [List.length_cons]
    omega

/-- Code.gs `chunkString_(str, chunkSize)`: chunks a string into pieces. -/
def chunkString_ (str : String) (chunkSize : Nat) : List String :=
  (chunkChars chunkSize str.data).map String.mk

/-- The chunk-joining loop of Code.gs `readChunksByKey_`:
`let combined = ''; ... combined += part;`. -/
def joinChunks (chunks : List String) : String :=
  chunks.foldl (fun acc c => acc ++ c) ""

theorem chunkChars_flatten (n : Nat) (hn : n ≠ 0) (l : List Char) :
    (chunkChars n l).flatten = l := by
  generalize hk : l.length = k
  induction k using Nat.strong_induction_on generalizing l with
  | _ k ih =>
    rw [chunkChars]
    by_cases hl : l = []
    · simp [hl]
    · rw [if_neg hl, if_neg hn]
      rw [List.flatten_cons,
        ih (l.drop n).length (by subst hk; have := List.length_pos.mpr hl; simp only [List.length_drop]; omega) (l.drop n) rfl,
        List.take_append_drop]

theorem chunkChars_length_le (n : Nat) (l : List Char) :
    ∀ c ∈ chunkChars n l, c.length ≤ n := by
  generalize hk : l.length = k
  induction k using Nat.strong_induction_on generalizing l with
  | _ k ih =>
    intro c hc
    rw [chunkChars] at hc
    by_cases hl : l = []
    · simp [hl] at hc
    · by_cases hn : n = 0
      · simp [hl, hn] at hc
      · rw [if_neg hl, if_neg hn] at hc
        rcases List.mem_cons.mp hc with h | h
        · subst h; exact List.length_take_le n l
        · exact ih (l.drop n).length
            (by subst hk; have := List.length_pos.mpr hl; simp only [List.length_drop]; omega)
            (l.drop n) rfl c h

theorem chunkChars_dropLast_length (n : Nat) (l : List Char) :
    ∀ c ∈ (chunkChars n l).dropLast, c.length = n := by
  generalize hk : l.length = k
  induction k using Nat.strong_induction_on generalizing l with
  | _ k ih =>
    intro c hc
    rw [chunkChars] at hc
    by_cases hl : l = []
    · simp [hl] at hc
    · by_cases hn : n = 0
      · simp [hl, hn] at hc
      · rw [if_neg hl, if_neg hn] at hc
        rcases hrest : chunkChars n (l.drop n) with _ | ⟨d, ds⟩
        · rw [hrest] at hc; simp at hc
        · rw [hrest, List.dropLast_cons₂] at hc
          rcases List.mem_cons.mp hc with h | h
          · subst h
            have hdrop : l.drop n ≠ [] := by
              intro he
              rw [chunkChars, if_pos he] at hrest
              exact List.noConfusion hrest
            have : n < l.length := by
              by_contra hcon
              exact hdrop (List.drop_eq_nil_of_le (by omega))
            simp [List.length_take]
            omega
          · have := ih (l.drop n).length
              (by subst hk; have := List.length_pos.mpr hl; simp only [List.length_drop]; omega)
              (l.drop n) rfl c
            rw [hrest] at this
            exact this h

theorem foldl_append_mk (cs : List (List Char)) (acc : List Char) :
    (cs.map String.mk).foldl (fun a c => a ++ c) (String.mk acc) =
      String.mk (acc ++ cs.flatten) := by
  induction cs generalizing acc with
  | nil => simp
  | cons c cs ih =>
    simp only [List.map_cons, List.foldl_cons, List.flatten_cons]
    have hstep : String.mk acc ++ String.mk c = String.mk (acc ++ c) := rfl
    rw [hstep, ih, List.append_assoc]

/-- Joining the chunks of a string reproduces the string. -/
theorem joinChunks_chunkString (T : String) (n : Nat) (hn : n ≠ 0) :
    joinChunks (chunkString_ T n) = T := by
  have hmk : (String.mk [] : String) = "" := rfl
  unfold joinChunks chunkString_
  rw [← hmk, foldl_append_mk, List.nil_append, chunkChars_flatten n hn]

/-! ## Configuration constants (the `CFG` object in Code.gs) -/

namespace CFG

def INITIAL_PAGE_SIZE : Nat := 200

def SNAPSHOT_TTL_SECONDS : Nat := 60 * 5

def CACHE_TTL_SECONDS : Nat := 60 * 10

def MAX_KEY_LEN : Nat := 80

def MAX_FIELD_LEN : Nat := 50000

def MAX_TAGS_LEN : Nat := 512

def MAX_LANGUAGE_LEN : Nat := 64

def MAX_APP_LEN : Nat := 128

def MAX_DESC_LEN : Nat := 2000

end CFG

/-! ## Data model -/

/-- A shortcut object as produced by `getShortcutsFromSheet_` and stored in a
snapshot, and equally a data row of the Shortcuts sheet (one string per
column of `HEADERS_SHORTCUTS`). -/
structure Shortcut where
  id : String
  key : String
  expansion : String
  application : String
  description : String
  language : String
  tags : String
  updatedAt : String
deriving DecidableEq, Repr

/-- A data row of the Favorites sheet (columns of `HEADERS_FAVORITES`). -/
structure FavRow where
  userEmail : String
  key : String
  createdAt : String
deriving DecidableEq, Repr

/-- The script cache (`CacheService.getScriptCache()`): a partial map from
string keys to string values. A key that was never written, was removed, or
whose TTL elapsed is `none`. -/
def Cache : Type := String → Option String

/-- The parsed form of the meta record `{chunkCount, encoding, updatedAt}`
that `writeCacheByKey_` stores under the `_META` key. -/
structure CacheMeta where
  chunkCount : Nat
  encoding : String
  updatedAt : String
deriving DecidableEq, Repr

/-- External collaborators used by the cache layer, modelled as opaque-to-the-
code functions: JSON serialization (`JSON.stringify` / `safeJsonParse_`),
gzip+base64 coding (`encodeGzB64_` / `decodeGzB64_`, `none` meaning the JS
function throws), and whether `cache.putAll` succeeds. -/
structure Env where
  stringify : List Shortcut → String
  parseList : String → Option (List Shortcut)
  stringifyMeta : CacheMeta → String
  parseMeta : String → Option CacheMeta
  encode : String → Option String
  decode : String → Option String
  putAllOk : Bool

/-- `cache.putAll(payload, ttl)`: writes every key/value pair of the payload.
The TTL only governs later expiry, which the map model renders as key
absence, so it is not part of the state. -/
def putAll (cache : Cache) (kvs : List (String × String)) : Cache :=
  fun k =>
    match kvs.find? (fun kv => kv.fst == k) with
    | some kv => some kv.snd
    | none => cache k

/-! ## Chunked cache read path (Code.gs `readChunksByKey_`, `readCacheByKey_`) -/

/-- The accumulation loop of `readChunksByKey_` over the chunk indices
`[1, ..., count]`: reads each chunk and concatenates; a missing or empty
chunk (`if (!part) return null`) aborts the whole join. -/
def readChunksList (cache : Cache) (pfx : String) :
    List Nat → String → Option String
  | [], acc => some acc
  | i :: rest, acc =>
    match cache (pfx ++ "_" ++ toString i) with
    | none => none
    | some part =>
      if part = "" then none
      else readChunksList cache pfx rest (acc ++ part)

/-- Code.gs `readChunksByKey_(prefix, count)`: the key loop runs over
`i = 1, ..., count` (`List.range' 1 count`). -/
def readChunksByKey_ (cache : Cache) (pfx : String) (count : Nat) :
    Option String :=
  readChunksList cache pfx (List.range' 1 count) ""

/-- Code.gs `readCacheByKey_(prefix)`. Returns `Except` because a corrupt
combined chunk makes `decodeGzB64_` throw; every other failure path returns
`null` (here `Option.none`). -/
def readCacheByKey_ (env : Env) (cache : Cache) (pfx : String) :
    Except String (Option (List Shortcut)) :=
  match cache (pfx ++ "_META") with
  | none => .ok none
  | some metaRaw =>
    match env.parseMeta metaRaw with
    | none => .ok none
    | some meta =>
      if meta.chunkCount ≠ 0 ∧ meta.encoding = "gz-b64" then
        match readChunksByKey_ cache pfx meta.chunkCount with
        | none => .ok none
        | some combined =>
          if combined = "" then .ok none
          else
            match env.decode combined with
            | none => .error "Decompression failed"
            | some json =>
              match env.parseList json with
              | some arr => .ok (some arr)
              | none => .ok none
      else .ok none

/-- Code.gs `readSnapshotCache_(token)`. -/
def readSnapshotCache_ (env : Env) (cache : Cache) (token : String) :
    Except String (Option (List Shortcut)) :=
  readCacheByKey_ env cache ("SNAP_" ++ token)

/-! ## Chunked cache write path (Code.gs `writeCacheByKey_`) -/

/-- Code.gs `writeCacheByKey_(prefix, list, ttl)`. The JSON encoding and
gzip compression run before the `try` block, so a compression failure
throws out of the function (`Except.error`); a `putAll` failure is caught
and surfaces only as the `false` return value, leaving the cache unwritten. -/
def writeCacheByKey_ (env : Env) (cache : Cache) (pfx : String)
    (list : List Shortcut) (ttl : Nat) (now : String) :
    Except String (Bool × Cache) :=
  let json := env.stringify list
  match env.encode json with
  | none => .error "Compression failed"
  | some encoded =>
    let chunks := chunkString_ encoded 90000
    let meta : CacheMeta := ⟨chunks.length, "gz-b64", now⟩
    if env.putAllOk then
      let payload :=
        (pfx ++ "_META", env.stringifyMeta meta) ::
          (List.range chunks.length).map
            (fun i => (pfx ++ "_" ++ toString (i + 1), chunks.getD i ""))
      .ok (true, putAll cache payload)
    else
      .ok (false, cache)

/-- Code.gs `writeSnapshotCache_(token, list)`: delegates to
`writeCacheByKey_` and discards its boolean return value. -/
def writeSnapshotCache_ (env : Env) (cache : Cache) (token : String)
    (list : List Shortcut) (now : String) : Except String Cache :=
  match writeCacheByKey_ env cache ("SNAP_" ++ token) list
      CFG.SNAPSHOT_TTL_SECONDS now with
  | .error e => .error e
  | .ok r => .ok r.snd

/-! ## Snapshot creation (Code.gs `beginShortcutsSnapshot`) -/

/-- The snapshot metadata `{snapshotToken, total, builtAt, pageSize}`. -/
structure SnapMeta where
  snapshotToken : String
  total : Nat
  builtAt : String
  pageSize : Nat
deriving DecidableEq, Repr

/-- Code.gs `beginShortcutsSnapshot()`. `lockOk` is the outcome of
`lock.tryLock(5000)`; `sheetRows` is the result of `getShortcutsFromSheet_()`;
`token` is the fresh `Utilities.getUuid()` and `now` the ISO timestamp. -/
def beginShortcutsSnapshot (env : Env) (lockOk : Bool)
    (sheetRows : List Shortcut) (token now : String) (cache : Cache) :
    Except String (SnapMeta × Cache) :=
  if lockOk then
    let meta : SnapMeta := ⟨token, sheetRows.length, now, CFG.INITIAL_PAGE_SIZE⟩
    match writeSnapshotCache_ env cache token sheetRows now with
    | .error e => .error e
    | .ok cache1 => .ok (meta, cache1)
  else
    .error "Server busy. Please try again."

/-! ## Page reading (Code.gs `fetchSnapshotPage_`) -/

/-- JavaScript `Number(x) || d`: a missing or non-coercible argument
(modelled as `none`, i.e. `NaN`) and the number `0` both fall back to the
default. -/
def jsOrElse (v : Option Int) (d : Int) : Int :=
  match v with
  | some n => if n = 0 then d else n
  | none => d

/-- Clamping of one relative index of `Array.prototype.slice` into
`[0, len]`: a negative index counts from the end. -/
def sliceBound (len : Nat) (i : Int) : Nat :=
  if i < 0 then (max ((len : Int) + i) 0).toNat else min i.toNat len

/-- JavaScript `Array.prototype.slice(start, stop)` with possibly negative
relative indices. -/
def jsSlice {α : Type} (l : List α) (start stop : Int) : List α :=
  (l.drop (sliceBound l.length start)).take
    (sliceBound l.length stop - sliceBound l.length start)

/-- Result of `fetchSnapshotPage_`: either `{error: 'SNAPSHOT_EXPIRED'}` or
the page object `{items, offset, total, hasMore, snapshotToken}`. -/
inductive PageResult where
  | expired
  | page (items : List Shortcut) (offset : Int) (total : Nat)
      (hasMore : Bool) (snapshotToken : String)
deriving DecidableEq, Repr

/-- Code.gs `fetchSnapshotPage_(snapshotToken, offset, limit)`. -/
def fetchSnapshotPage_ (env : Env) (cache : Cache) (snapshotToken : String)
    (offset limit : Option Int) : Except String PageResult :=
  match readSnapshotCache_ env cache snapshotToken with
  | .error e => .error e
  | .ok none => .ok .expired
  | .ok (some allData) =>
    let start := jsOrElse offset 0
    let count := jsOrElse limit (CFG.INITIAL_PAGE_SIZE : Nat)
    let slice := jsSlice allData start (start + count)
    .ok (.page slice (start + slice.length) allData.length
      (decide ((allData.length : Int) > start + count)) snapshotToken)

/-- The items of an ok page result (empty for errors and expiry); used only
to state claims about the item list. -/
def pageItems (r : Except String PageResult) : List Shortcut :=
  match r with
  | .ok (.page items _ _ _ _) => items
  | _ => []

/-- The client paging walk described by the spec: starting from an offset,
repeatedly call `fetchSnapshotPage_` with a fixed page size, following the
returned `offset` cursor, until `hasMore` is false; collect the items. The
fuel bounds the recursion and is irrelevant whenever it exceeds the number
of pages. -/
def walkSnapshot (env : Env) (cache : Cache) (token : String) (k : Nat) :
    Nat → Nat → Option (List Shortcut)
  | 0, _ => none
  | fuel + 1, offset =>
    match fetchSnapshotPage_ env cache token (some offset) (some k) with
    | .ok (.page items newOff _ hasMore _) =>
      if hasMore then
        match walkSnapshot env cache token k fuel newOff.toNat with
        | some rest => some (items ++ rest)
        | none => none
      else some items
    | _ => none

/-! ## Paging lemmas -/

theorem sliceBound_natCast (len o : Nat) : sliceBound len (o : Int) = min o len := by
  unfold sliceBound
  rw [if_neg (by omega)]
  omega

theorem jsSlice_natCast {α : Type} (l : List α) (o k : Nat) :
    jsSlice l (o : Int) ((o : Int) + (k : Int)) = (l.drop o).take k := by
  unfold jsSlice
  have hcast : (o : Int) + (k : Int) = ((o + k : Nat) : Int) := by push_cast; ring
  rw [hcast, sliceBound_natCast, sliceBound_natCast]
  rcases Nat.le_total o l.length with ho | ho
  · rw [Nat.min_eq_left ho]
    rcases Nat.le_total (o + k) l.length with hok | hok
    · rw [Nat.min_eq_left hok, Nat.add_sub_cancel_left]
    · rw [Nat.min_eq_right hok]
      rw [List.take_of_length_le (by simp only [List.length_drop]; omega),
        List.take_of_length_le (by simp only [List.length_drop]; omega)]
  · rw [Nat.min_eq_right ho, List.drop_of_length_le ho,
      List.drop_of_length_le (le_refl _)]
    simp

theorem jsOrElse_some (n d : Int) : jsOrElse (some n) d = if n = 0 then d else n :=
  rfl

theorem jsOrElse_none (d : Int) : jsOrElse none d = d :=
  rfl

theorem jsOrElse_some_pos (n : Nat) (hn : 1 ≤ n) (d : Int) :
    jsOrElse (some (n : Int)) d = n := by
  rw [jsOrElse_some, if_neg (by omega)]

theorem jsOrElse_natCast (o : Nat) : jsOrElse (some (o : Int)) 0 = o := by
  rw [jsOrElse_some]
  by_cases h : (o : Int) = 0
  · rw [if_pos h, h]
  · rw [if_neg h]

/-- Computation of `fetchSnapshotPage_` on an unexpired snapshot at a
nonnegative offset and positive limit. -/
theorem fetchSnapshotPage_eq (env : Env) (cache : Cache) (token : String)
    (rows : List Shortcut) (o k : Nat)
    (hread : readSnapshotCache_ env cache token = .ok (some rows))
    (hk : 1 ≤ k) :
    fetchSnapshotPage_ env cache token (some (o : Int)) (some (k : Int)) =
      .ok (.page ((rows.drop o).take k)
        ((o : Int) + (((rows.drop o).take k).length : Int))
        rows.length
        (decide (rows.length > o + k)) token) := by
  unfold fetchSnapshotPage_
  simp only [hread, jsOrElse_natCast o, jsOrElse_some_pos k hk, jsSlice_natCast]
  have hdec : decide ((rows.length : Int) > (o : Int) + (k : Int)) =
      decide (rows.length > o + k) := by
    rw [decide_eq_decide]
    omega
  rw [hdec]

theorem length_take_drop {α : Type} (l : List α) (o k : Nat) :
    ((l.drop o).take k).length = min k (l.length - o) := by
  simp [List.length_take, List.length_drop]

theorem walkSnapshot_drop (env : Env) (cache : Cache) (token : String)
    (rows : List Shortcut) (k : Nat) (hk : 1 ≤ k)
    (hread : readSnapshotCache_ env cache token = .ok (some rows)) :
    ∀ fuel o, rows.length - o < fuel →
      walkSnapshot env cache token k fuel o = some (rows.drop o) := by
  intro fuel
  induction fuel with
  | zero => intro o h; omega
  | succ fuel ih =>
    intro o h
    rw [walkSnapshot, fetchSnapshotPage_eq env cache token rows o k hread hk]
    by_cases hmore : rows.length > o + k
    · rw [decide_eq_true hmore]
      simp only []
      rw [if_pos trivial]
      have hlen : ((rows.drop o).take k).length = k := by
        rw [length_take_drop]; omega
      have hoff : (((o : Int) + (((rows.drop o).take k).length : Int)).toNat) = o + k := by
        rw [hlen]; omega
      rw [hoff, ih (o + k) (by omega)]
      have hglue : (rows.drop o).take k ++ rows.drop (o + k) = rows.drop o := by
        have hdd : rows.drop (o + k) = (rows.drop o).drop k := by
          rw [List.drop_drop, Nat.add_comm]
        rw [hdd, List.take_append_drop]
      simp only []
      rw [hglue]
    · rw [decide_eq_false hmore]
      simp only []
      rw [if_neg (by simp)]
      have htake : (rows.drop o).take k = rows.drop o :=
        List.take_of_length_le (by rw [List.length_drop]; omega)
      rw [htake]

/-- C1: on an unexpired snapshot holding `rows`, a page request at offset
`o ≥ 0` with limit `k ≥ 1` returns `rows[o : o+k]`, the advanced cursor
`o + items.length`, `total = rows.length`, and
`hasMore = (rows.length > o + k)`; consequently the paging walk from
offset 0 with page size `k` yields exactly `rows`, in order. -/
theorem c1_fetchSnapshotPage_slices (env : Env) (cache : Cache)
    (token : String) (rows : List Shortcut) (o k : Nat)
    (hread : readSnapshotCache_ env cache token = .ok (some rows))
    (hk : 1 ≤ k) :
    fetchSnapshotPage_ env cache token (some (o : Int)) (some (k : Int)) =
      .ok (.page ((rows.drop o).take k)
        ((o : Int) + (((rows.drop o).take k).length : Int))
        rows.length
        (decide (rows.length > o + k)) token) ∧
    walkSnapshot env cache token k (rows.length + 1) 0 = some rows := by
  refine ⟨fetchSnapshotPage_eq env cache token rows o k hread hk, ?_⟩
  have := walkSnapshot_drop env cache token rows k hk hread (rows.length + 1) 0
    (by omega)
  simpa using this

/-! ## Expired snapshots (C2) -/

theorem readChunksList_none (cache : Cache) (pfx : String) (j : Nat)
    (hnone : cache (pfx ++ "_" ++ toString j) = none) :
    ∀ idxs acc, j ∈ idxs → readChunksList cache pfx idxs acc = none := by
  intro idxs
  induction idxs with
  | nil => intro acc hj; cases hj
  | cons i rest ih =>
    intro acc hj
    rw [readChunksList]
    rcases hci : cache (pfx ++ "_" ++ toString i) with _ | part
    · simp [hci]
    · simp only [hci]
      by_cases hp : part = ""
      · rw [if_pos hp]
      · rw [if_neg hp]
        rcases List.mem_cons.mp hj with he | hm
        · rw [← he, hnone] at hci
          exact Option.noConfusion hci
        · exact ih (acc ++ part) hm

/-- C2: a missing meta record, or any single missing numbered chunk among the
meta record's `chunkCount` chunks, makes `fetchSnapshotPage_` return the
single expired signal, never a partial item list. -/
theorem c2_fetchSnapshotPage_expired (env : Env) (cache : Cache)
    (token : String) (offset limit : Option Int)
    (h : cache ("SNAP_" ++ token ++ "_META") = none ∨
      ∃ metaRaw meta j, cache ("SNAP_" ++ token ++ "_META") = some metaRaw ∧
        env.parseMeta metaRaw = some meta ∧ 1 ≤ j ∧ j ≤ meta.chunkCount ∧
        cache ("SNAP_" ++ token ++ "_" ++ toString j) = none) :
    fetchSnapshotPage_ env cache token offset limit = .ok .expired := by
  unfold fetchSnapshotPage_ readSnapshotCache_ readCacheByKey_
  rcases h with hmeta | ⟨metaRaw, meta, j, hmeta, hparse, hj1, hjc, hchunk⟩
  · rw [hmeta]
  · rw [hmeta]
    simp only [hparse]
    by_cases hcond : meta.chunkCount ≠ 0 ∧ meta.encoding = "gz-b64"
    · rw [if_pos hcond]
      have hnone : readChunksByKey_ cache ("SNAP_" ++ token) meta.chunkCount = none := by
        unfold readChunksByKey_
        refine readChunksList_none cache ("SNAP_" ++ token) j hchunk _ "" ?_
        exact List.mem_range'_1.mpr ⟨hj1, by omega⟩
      rw [hnone]
    · rw [if_neg hcond]

/-! ## Argument coercion defaults (C9) -/

/-- C9: `fetchSnapshotPage_` coerces its arguments with
`Number(x) || default`: a limit of 0, a missing limit, or a non-numeric
limit falls back to `CFG.INITIAL_PAGE_SIZE = 200`, and a missing or
non-numeric offset falls back to 0, so a request with limit 0 on an
unexpired snapshot returns up to 200 items rather than an empty page. -/
theorem c9_fetchSnapshotPage_defaults (env : Env) (cache : Cache)
    (token : String) (rows : List Shortcut)
    (hread : readSnapshotCache_ env cache token = .ok (some rows)) :
    CFG.INITIAL_PAGE_SIZE = 200 ∧
    (∀ off : Option Int,
      fetchSnapshotPage_ env cache token off (some 0) =
        fetchSnapshotPage_ env cache token off (some 200) ∧
      fetchSnapshotPage_ env cache token off none =
        fetchSnapshotPage_ env cache token off (some 200)) ∧
    (∀ lim : Option Int,
      fetchSnapshotPage_ env cache token none lim =
        fetchSnapshotPage_ env cache token (some 0) lim) ∧
    pageItems (fetchSnapshotPage_ env cache token (some 0) (some 0)) =
      rows.take 200 := by
  have hcast0 : (0 : Int) = ((0 : Nat) : Int) := by norm_num
  have hcast200 : ((CFG.INITIAL_PAGE_SIZE : Nat) : Int) = ((200 : Nat) : Int) := by
    norm_num [CFG.INITIAL_PAGE_SIZE]
  refine ⟨rfl, ?_, ?_, ?_⟩
  · intro off
    constructor <;>
      simp [fetchSnapshotPage_, hread, jsOrElse_some, jsOrElse_none,
        CFG.INITIAL_PAGE_SIZE]
  · intro lim
    simp [fetchSnapshotPage_, hread, jsOrElse_some, jsOrElse_none]
  · unfold fetchSnapshotPage_
    simp only [hread]
    have h1 : jsOrElse (some 0) 0 = ((0 : Nat) : Int) := rfl
    have h2 : jsOrElse (some 0) ((CFG.INITIAL_PAGE_SIZE : Nat) : Int) =
        ((200 : Nat) : Int) := rfl
    rw [h1, h2, jsSlice_natCast rows 0 200]
    simp [pageItems]

/-! ## Chunker round trip (C4) -/

/-- C4: `chunkString_` splits a string into contiguous in-order chunks of
length at most `n` — every chunk except possibly the last has length exactly
`n` — and the join loop of `readChunksByKey_` reassembles the original
string. -/
theorem c4_chunkString_roundtrip (T : String) (n : Nat) (hn : 1 ≤ n) :
    joinChunks (chunkString_ T n) = T ∧
    (∀ c ∈ chunkString_ T n, c.length ≤ n) ∧
    (∀ c ∈ (chunkString_ T n).dropLast, c.length = n) := by
  refine ⟨joinChunks_chunkString T n (by omega), ?_, ?_⟩
  · intro c hc
    unfold chunkString_ at hc
    obtain ⟨cl, hcl, rfl⟩ := List.mem_map.mp hc
    exact chunkChars_length_le n T.data cl hcl
  · intro c hc
    unfold chunkString_ at hc
    rw [← List.map_dropLast] at hc
    obtain ⟨cl, hcl, rfl⟩ := List.mem_map.mp hc
    exact chunkChars_dropLast_length n T.data cl hcl

/-- Witness for C4 at a concrete string and chunk size. -/
theorem c4_witness :
    1 ≤ 2 ∧
    (joinChunks (chunkString_ "abcde" 2) = "abcde" ∧
      (∀ c ∈ chunkString_ "abcde" 2, c.length ≤ 2) ∧
      (∀ c ∈ (chunkString_ "abcde" 2).dropLast, c.length = 2)) :=
  ⟨by decide, c4_chunkString_roundtrip "abcde" 2 (by decide)⟩

/-! ## Concrete snapshot fixtures for witnesses -/

def rowA : Shortcut := ⟨"1", "a", "ea", "", "", "", "", ""⟩

def rowB : Shortcut := ⟨"2", "b", "eb", "", "", "", "", ""⟩

def rowC : Shortcut := ⟨"3", "c", "ec", "", "", "", "", ""⟩

/-- A three-row snapshot content. -/
def rowsW : List Shortcut := [rowA, rowB, rowC]

/-- A concrete environment: "JSON" parses to `rowsW`, "META" parses to a
one-chunk meta record, "META2" to a two-chunk one, decoding "CHUNK" gives
"JSON". -/
def envW : Env :=
  ⟨fun _ => "",
   fun s => if s = "JSON" then some rowsW else none,
   fun _ => "",
   fun s =>
     if s = "META" then some ⟨1, "gz-b64", "t"⟩
     else if s = "META2" then some ⟨2, "gz-b64", "t"⟩
     else none,
   fun s => some s,
   fun s => if s = "CHUNK" then some "JSON" else none,
   true⟩

/-- A cache holding an intact snapshot under token "tok". -/
def cacheW : Cache := fun k =>
  if k = "SNAP_tok_META" then some "META"
  else if k = "SNAP_tok_1" then some "CHUNK"
  else none

/-- A cache where the snapshot "tok2" has its meta record (announcing two
chunks) but chunk 2 is missing. -/
def cacheW2 : Cache := fun k =>
  if k = "SNAP_tok2_META" then some "META2"
  else if k = "SNAP_tok2_1" then some "CHUNK"
  else none

/-- Witness for C1 at the concrete snapshot, offset 1, limit 2. -/
theorem c1_witness :
    readSnapshotCache_ envW cacheW "tok" = .ok (some rowsW) ∧ 1 ≤ 2 ∧
    (fetchSnapshotPage_ envW cacheW "tok" (some ((1 : Nat) : Int))
        (some ((2 : Nat) : Int)) =
      .ok (.page ((rowsW.drop 1).take 2)
        (((1 : Nat) : Int) + (((rowsW.drop 1).take 2).length : Int))
        rowsW.length (decide (rowsW.length > 1 + 2)) "tok") ∧
      walkSnapshot envW cacheW "tok" 2 (rowsW.length + 1) 0 = some rowsW) :=
  ⟨rfl, by decide,
    c1_fetchSnapshotPage_slices envW cacheW "tok" rowsW 1 2 rfl (by decide)⟩

/-- Witness for C2: the meta record of "tok2" is present and parses to a
two-chunk record, chunk 2 is absent, and the fetch reports expiry. -/
theorem c2_witness :
    (cacheW2 ("SNAP_" ++ "tok2" ++ "_META") = none ∨
      ∃ metaRaw meta j,
        cacheW2 ("SNAP_" ++ "tok2" ++ "_META") = some metaRaw ∧
        envW.parseMeta metaRaw = some meta ∧ 1 ≤ j ∧ j ≤ meta.chunkCount ∧
        cacheW2 ("SNAP_" ++ "tok2" ++ "_" ++ toString j) = none) ∧
    fetchSnapshotPage_ envW cacheW2 "tok2" (some 0) (some 10) =
      .ok .expired :=
  ⟨Or.inr ⟨"META2", ⟨2, "gz-b64", "t"⟩, 2, rfl, rfl, by decide, by decide, rfl⟩,
   c2_fetchSnapshotPage_expired envW cacheW2 "tok2" (some 0) (some 10)
     (Or.inr ⟨"META2", ⟨2, "gz-b64", "t"⟩, 2, rfl, rfl, by decide, by decide, rfl⟩)⟩

/-- Witness for C9 at the concrete snapshot. -/
theorem c9_witness :
    readSnapshotCache_ envW cacheW "tok" = .ok (some rowsW) ∧
    (CFG.INITIAL_PAGE_SIZE = 200 ∧
      (∀ off : Option Int,
        fetchSnapshotPage_ envW cacheW "tok" off (some 0) =
          fetchSnapshotPage_ envW cacheW "tok" off (some 200) ∧
        fetchSnapshotPage_ envW cacheW "tok" off none =
          fetchSnapshotPage_ envW cacheW "tok" off (some 200)) ∧
      (∀ lim : Option Int,
        fetchSnapshotPage_ envW cacheW "tok" none lim =
          fetchSnapshotPage_ envW cacheW "tok" (some 0) lim) ∧
      pageItems (fetchSnapshotPage_ envW cacheW "tok" (some 0) (some 0)) =
        rowsW.take 200) :=
  ⟨rfl, c9_fetchSnapshotPage_defaults envW cacheW "tok" rowsW rfl⟩

/-! ## Snapshot creation failure modes (C5) -/

/-- An environment whose cache `putAll` fails (throws inside the try block of
`writeCacheByKey_`) while compression succeeds. -/
def envFail : Env :=
  ⟨fun _ => "[]", fun _ => none, fun _ => "", fun _ => none,
   fun s => some s, fun _ => none, false⟩

/-- An environment whose gzip encoding throws. -/
def envFail2 : Env :=
  ⟨fun _ => "[]", fun _ => none, fun _ => "", fun _ => none,
   fun _ => none, fun _ => none, true⟩

/-- The empty cache. -/
def emptyCache : Cache := fun _ => none

/-- C5 counterexample: when the cache write (`putAll`) fails,
`beginShortcutsSnapshot` does not fail — it still returns the
`{token, total}` metadata, the cache is left unchanged, and the freshly
announced snapshot is immediately unreadable (expired). -/
theorem c5_counterexample :
    beginShortcutsSnapshot envFail true [] "tok" "now" emptyCache =
      .ok (⟨"tok", 0, "now", CFG.INITIAL_PAGE_SIZE⟩, emptyCache) ∧
    readSnapshotCache_ envFail emptyCache "tok" = .ok none ∧
    fetchSnapshotPage_ envFail emptyCache "tok" (some 0) (some 1) =
      .ok .expired :=
  ⟨rfl, rfl, rfl⟩

/-- C5 (amended): `beginShortcutsSnapshot` fails when the lock cannot be
acquired, and propagates a compression failure (raised before the try block
of `writeCacheByKey_`); but a failure of the cache `putAll` itself is caught
inside `writeCacheByKey_` and surfaced only as its ignored `false` return
value, so begin still returns the `{token, total}` metadata with the cache
unchanged. -/
theorem c5_beginSnapshot_failure_modes (env : Env) (cache : Cache)
    (rows : List Shortcut) (token now : String) :
    (beginShortcutsSnapshot env false rows token now cache =
      .error "Server busy. Please try again.") ∧
    (env.encode (env.stringify rows) = none →
      beginShortcutsSnapshot env true rows token now cache =
        .error "Compression failed") ∧
    (∀ e, env.putAllOk = false → env.encode (env.stringify rows) = some e →
      beginShortcutsSnapshot env true rows token now cache =
        .ok (⟨token, rows.length, now, CFG.INITIAL_PAGE_SIZE⟩, cache)) := by
  refine ⟨rfl, ?_, ?_⟩
  · intro henc
    unfold beginShortcutsSnapshot writeSnapshotCache_ writeCacheByKey_
    simp only [henc, if_pos rfl]
    rw [if_pos trivial]
  · intro e hput henc
    unfold beginShortcutsSnapshot writeSnapshotCache_ writeCacheByKey_
    simp only [henc, hput, if_pos rfl, Bool.false_eq_true, if_false]
    rw [if_pos trivial]

/-- Witness for the amended C5 at concrete environments: a compression
failure propagates, while a putAll failure is swallowed and begin still
returns metadata. -/
theorem c5_witness :
    envFail2.encode (envFail2.stringify []) = none ∧
    envFail.putAllOk = false ∧
    envFail.encode (envFail.stringify []) = some "[]" ∧
    beginShortcutsSnapshot envFail2 true [] "tok" "now" emptyCache =
      .error "Compression failed" ∧
    beginShortcutsSnapshot envFail true [] "tok" "now" emptyCache =
      .ok (⟨"tok", 0, "now", CFG.INITIAL_PAGE_SIZE⟩, emptyCache) :=
  ⟨rfl, rfl, rfl,
   (c5_beginSnapshot_failure_modes envFail2 emptyCache [] "tok" "now").2.1 rfl,
   (c5_beginSnapshot_failure_modes envFail emptyCache [] "tok" "now").2.2
     "[]" rfl rfl⟩

/-! ## Sheet row scanning and deletion

The sheet tables are modelled as lists of data rows (the header row is
implicit); list index `i` corresponds to 1-based sheet row `i + 2`, and
`sheet.deleteRow r` erases list index `r - 2`. -/

/-- Generic form of the row-scanning loops: the 1-based sheet row numbers
(starting at `r`) of the rows satisfying `p`, in ascending order. -/
def matchRows {α : Type} (p : α → Bool) : List α → Nat → List Nat
  | [], _ => []
  | a :: t, r => if p a then r :: matchRows p t (r + 1) else matchRows p t (r + 1)

/-- A sequence of `sheet.deleteRow(r)` calls, executed left to right on the
given sheet row numbers. -/
def eraseRows {α : Type} (tbl : List α) (rows : List Nat) : List α :=
  rows.foldl (fun t r => t.eraseIdx (r - 2)) tbl

/-- Code.gs `getColumnValues_(sheet, col.key)` on the Shortcuts sheet: the
key column of the data rows, each value passed through
`String(v || '').trim()`. -/
def getColumnValues_ (table : List Shortcut) : List String :=
  table.map (fun r => jsTrim r.key)

/-- Code.gs `findAllRowsByKey_(keysArray, key)`: all 1-based sheet row
numbers (`i + 2`) whose trimmed value equals the trimmed target key. -/
def findAllRowsByKey_ (keysArray : List String) (key : String) : List Nat :=
  matchRows (fun s => jsTrim s == jsTrim key) keysArray 2

theorem matchRows_shift {α : Type} (p : α → Bool) (l : List α) :
    ∀ r, matchRows p l (r + 1) = (matchRows p l r).map (· + 1) := by
  induction l with
  | nil => intro r; rfl
  | cons a t ih =>
    intro r
    rw [matchRows, matchRows]
    by_cases hp : p a
    · rw [if_pos hp, if_pos hp, List.map_cons, ih (r + 1)]
    · rw [if_neg hp, if_neg hp, ih (r + 1)]

theorem matchRows_map {α β : Type} (p : β → Bool) (f : α → β) (l : List α) :
    ∀ r, matchRows p (l.map f) r = matchRows (fun a => p (f a)) l r := by
  induction l with
  | nil => intro r; rfl
  | cons a t ih =>
    intro r
    rw [List.map_cons, matchRows, matchRows]
    by_cases hp : p (f a)
    · rw [if_pos hp, if_pos hp, ih (r + 1)]
    · rw [if_neg hp, if_neg hp, ih (r + 1)]

theorem matchRows_length {α : Type} (p : α → Bool) (l : List α) :
    ∀ r, (matchRows p l r).length = (l.filter p).length := by
  induction l with
  | nil => intro r; rfl
  | cons a t ih =>
    intro r
    rw [matchRows, List.filter_cons]
    by_cases hp : p a
    · rw [if_pos hp, if_pos hp, List.length_cons, List.length_cons, ih (r + 1)]
    · rw [if_neg hp, if_neg hp, ih (r + 1)]

theorem matchRows_chain {α : Type} (p : α → Bool) (l : List α) :
    ∀ r, List.Chain' (· < ·) (matchRows p l r) ∧
      ∀ x ∈ matchRows p l r, r ≤ x := by
  induction l with
  | nil => intro r; exact ⟨List.chain'_nil, by intro x hx; cases hx⟩
  | cons a t ih =>
    intro r
    rw [matchRows]
    by_cases hp : p a
    · rw [if_pos hp]
      refine ⟨List.chain'_cons'.mpr ⟨?_, (ih (r + 1)).1⟩, ?_⟩
      · intro y hy
        have := (ih (r + 1)).2 y (List.mem_of_mem_head? hy)
        omega
      · intro x hx
        rcases List.mem_cons.mp hx with he | hm
        · omega
        · have := (ih (r + 1)).2 x hm
          omega
    · rw [if_neg hp]
      refine ⟨(ih (r + 1)).1, ?_⟩
      intro x hx
      have := (ih (r + 1)).2 x hx
      omega

/-- Folding plain `eraseIdx` over a list of 0-based indices. -/
def eraseIdxsFold {α : Type} (l : List α) (idxs : List Nat) : List α :=
  idxs.foldl (fun t i => t.eraseIdx i) l

theorem eraseIdxsFold_cons_map_succ {α : Type} (a : α) (t : List α)
    (idxs : List Nat) :
    eraseIdxsFold (a :: t) (idxs.map (· + 1)) = a :: eraseIdxsFold t idxs := by
  induction idxs generalizing t with
  | nil => rfl
  | cons i is ih =>
    simp only [List.map_cons, eraseIdxsFold, List.foldl_cons,
      List.eraseIdx_cons_succ]
    exact ih (t.eraseIdx i)

theorem eraseIdxsFold_matchRows {α : Type} (p : α → Bool) (l : List α) :
    eraseIdxsFold l (matchRows p l 0).reverse = l.filter (fun a => ! p a) := by
  induction l with
  | nil => rfl
  | cons a t ih =>
    rw [matchRows]
    have hshift : matchRows p t 1 = (matchRows p t 0).map (· + 1) :=
      matchRows_shift p t 0
    by_cases hp : p a
    · rw [if_pos hp, hshift, List.reverse_cons, ← List.map_reverse]
      unfold eraseIdxsFold
      rw [List.foldl_append]
      have h1 : ((matchRows p t 0).reverse.map (· + 1)).foldl
          (fun t i => t.eraseIdx i) (a :: t) =
          a :: eraseIdxsFold t (matchRows p t 0).reverse :=
        eraseIdxsFold_cons_map_succ a t (matchRows p t 0).reverse
      rw [h1, ih]
      simp [List.filter_cons, hp]
    · rw [if_neg hp, hshift, ← List.map_reverse]
      have h1 : eraseIdxsFold (a :: t) ((matchRows p t 0).reverse.map (· + 1)) =
          a :: eraseIdxsFold t (matchRows p t 0).reverse :=
        eraseIdxsFold_cons_map_succ a t (matchRows p t 0).reverse
      rw [h1, ih]
      simp [List.filter_cons, hp]

/-- Deleting, in descending sheet-row order, exactly the rows found by the
ascending scan leaves the rows not satisfying the predicate. -/
theorem eraseRows_matchRows {α : Type} (p : α → Bool) (l : List α) :
    eraseRows l (matchRows p l 2).reverse = l.filter (fun a => ! p a) := by
  have h2 : matchRows p l 2 = (matchRows p l 0).map (· + 1 + 1) := by
    have ha := matchRows_shift p l 0
    have hb := matchRows_shift p l 1
    rw [show (2 : Nat) = 1 + 1 from rfl, hb, ha, List.map_map]
    rfl
  rw [h2, ← List.map_reverse]
  unfold eraseRows
  rw [List.foldl_map]
  have hfun : (fun (t : List α) (i : Nat) => t.eraseIdx (i + 1 + 1 - 2)) =
      fun (t : List α) (i : Nat) => t.eraseIdx i := by
    funext t i
    congr 1
  rw [hfun]
  exact eraseIdxsFold_matchRows p l

/-! ## Shortcut CRUD (uiHandlers.gs `upsertShortcut`, `deleteShortcut`) -/

/-- Observable actions of a mutating handler, in execution order. The
document lock (`LockService.getDocumentLock(); lock.waitLock(30000)`) is
acquired before the try block and released in the finally block. -/
inductive Ev where
  | lockAcquired
  | lockReleased
  | deletedRow (rowIndex : Nat)
  | appendedRow
deriving DecidableEq, Repr

/-- The upsert payload object from the UI; a field the caller omitted is
modelled as `""` (the code reads every field as `String(x || '')`). -/
structure Payload where
  key : String
  expansion : String
  application : String
  description : String
  language : String
  tags : String
deriving DecidableEq, Repr

/-- Result shape of `validateShortcutPayload_`: `{ok, message}` (a success
carries no message, modelled as `""`). -/
structure ValidationResult where
  ok : Bool
  message : String
deriving DecidableEq, Repr

/-- Result shape of `upsertShortcut`: `{ok, action, message}`, where
`action` is absent (`none`) on the validation-failure path. -/
structure UpsertResult where
  ok : Bool
  action : Option String
  message : String
deriving DecidableEq, Repr

/-- Result shape of `deleteShortcut`: `{ok, message}`. -/
structure DeleteResult where
  ok : Bool
  message : String
deriving DecidableEq, Repr

/-- Code.gs `validateShortcutPayload_(payload)` (`none` is a null payload). -/
def validateShortcutPayload_ : Option Payload → ValidationResult
  | none => ⟨false, "Missing payload."⟩
  | some payload =>
    let key := jsTrim payload.key
    let expansion := jsTrim payload.expansion
    if key = "" then ⟨false, "Snippet Name is required."⟩
    else if key.length > CFG.MAX_KEY_LEN then ⟨false, "Snippet Name too long."⟩
    else if expansion = "" then ⟨false, "Content is required."⟩
    else ⟨true, ""⟩

/-- The new sheet row built by `upsertShortcut`: trimmed key, the other
fields length-limited by `.slice(0, MAX)`, `updatedAt = nowIso`; the ID
column is left `''`. -/
def mkUpsertRow (payload : Payload) (now : String) : Shortcut :=
  ⟨"", jsTrim payload.key,
   jsTake payload.expansion CFG.MAX_FIELD_LEN,
   jsTake payload.application CFG.MAX_APP_LEN,
   jsTake payload.description CFG.MAX_DESC_LEN,
   jsTake payload.language CFG.MAX_LANGUAGE_LEN,
   jsTake payload.tags CFG.MAX_TAGS_LEN,
   now⟩

/-- uiHandlers.gs `upsertShortcut(payload)`. The state is the list of data
rows of the Shortcuts sheet; the result is the returned object, the new
table, and the trace of observable actions. `matchingRows` is strictly
increasing, so the source's descending sort `sort((a, b) => b - a)` is its
reversal. -/
def upsertShortcut (table : List Shortcut) (payload? : Option Payload)
    (now : String) : UpsertResult × List Shortcut × List Ev :=
  let v := validateShortcutPayload_ payload?
  match payload? with
  | none => (⟨v.ok, none, v.message⟩, table, [Ev.lockAcquired, Ev.lockReleased])
  | some payload =>
    if v.ok = false then
      (⟨v.ok, none, v.message⟩, table, [Ev.lockAcquired, Ev.lockReleased])
    else
      let key := jsTrim payload.key
      let allKeys := getColumnValues_ table
      let matchingRows := findAllRowsByKey_ allKeys key
      let hadExisting := decide (matchingRows.length > 0)
      let row := mkUpsertRow payload now
      let sorted := matchingRows.reverse
      let table1 := eraseRows table sorted
      let table2 := table1 ++ [row]
      (⟨true, some (if hadExisting then "updated" else "created"),
          (if hadExisting then "Updated shortcut: " else "Created shortcut: ") ++ key⟩,
        table2,
        Ev.lockAcquired :: sorted.map Ev.deletedRow ++ [Ev.appendedRow, Ev.lockReleased])

/-- favorites.gs `removeFavoriteForAllUsers_(key)`: removes every Favorites
row (for any user) whose trimmed key equals the trimmed target; the
`data.length <= 1` early return is the empty-table case. -/
def removeFavoriteForAllUsers_ (fav : List FavRow) (key : String) :
    List FavRow :=
  let k := jsTrim key
  if k = "" then fav
  else if fav.length = 0 then fav
  else eraseRows fav (matchRows (fun f => jsTrim f.key == k) fav 2).reverse

/-- uiHandlers.gs `deleteShortcut(key)`. State: Shortcuts data rows and
Favorites data rows. -/
def deleteShortcut (table : List Shortcut) (fav : List FavRow)
    (key : String) : DeleteResult × List Shortcut × List FavRow × List Ev :=
  let k := jsTrim key
  if k = "" then
    (⟨false, "Missing shortcut key."⟩, table, fav,
      [Ev.lockAcquired, Ev.lockReleased])
  else
    let allKeys := getColumnValues_ table
    let matchingRows := findAllRowsByKey_ allKeys k
    if matchingRows.length = 0 then
      (⟨false, "Shortcut not found: " ++ k⟩, table, fav,
        [Ev.lockAcquired, Ev.lockReleased])
    else
      let sorted := matchingRows.reverse
      let table1 := eraseRows table sorted
      let fav1 := removeFavoriteForAllUsers_ fav k
      (⟨true, "Deleted shortcut: " ++ k⟩, table1, fav1,
        Ev.lockAcquired :: sorted.map Ev.deletedRow ++ [Ev.lockReleased])

/-! ## Favorites state machine (favorites.gs `updateFavoriteStatus_`) -/

/-- The three modes of `updateFavoriteStatus_` (its wrappers only ever pass
these three). -/
inductive FavMode where
  | toggle
  | force_add
  | force_remove
deriving DecidableEq, Repr

/-- Result shape `{status, snippet, message}` of `updateFavoriteStatus_`
(`message` is `""` when absent). -/
structure FavResult where
  status : String
  snippet : String
  message : String
deriving DecidableEq, Repr

/-- favorites.gs `updateFavoriteStatus_(snippetName, options)`. `userEmail`
is the result of `getUserEmail_()`; the Favorites sheet (with its header)
exists. The triple `dec` is `(shouldAdd, shouldDelete, resultStatus)` as
assigned by the mode state machine. -/
def updateFavoriteStatus_ (fav : List FavRow) (userEmail snippetName : String)
    (mode : FavMode) (now : String) : FavResult × List FavRow :=
  if userEmail = "" then
    (⟨"error", snippetName,
      "User email not available. Please reload the app."⟩, fav)
  else
    let targetEmail := jsTrim userEmail
    let targetKey := jsTrim snippetName
    if targetKey = "" then
      (⟨"error", "", "Invalid snippet name."⟩, fav)
    else
      let rowsToDelete := matchRows
        (fun f => jsTrim f.userEmail == targetEmail && jsTrim f.key == targetKey)
        fav 2
      let exists1 := decide (rowsToDelete.length > 0)
      let dec : Bool × Bool × String :=
        match mode with
        | .toggle =>
          if exists1 then (false, true, "removed") else (true, false, "added")
        | .force_add =>
          if exists1 then
            if decide (rowsToDelete.length > 1) then (true, true, "added")
            else (false, false, "added")
          else (true, false, "added")
        | .force_remove =>
          if exists1 then (false, true, "removed") else (false, false, "removed")
      let shouldAdd := dec.fst
      let shouldDelete := dec.snd.fst
      let resultStatus := dec.snd.snd
      let fav1 :=
        if shouldDelete && exists1 then eraseRows fav rowsToDelete.reverse
        else fav
      let fav2 :=
        if shouldAdd then fav1 ++ [⟨userEmail, targetKey, now⟩] else fav1
      (⟨resultStatus, targetKey, ""⟩, fav2)

/-! ## Upsert (C3, C6) -/

theorem findAllRowsByKey_spec (table : List Shortcut) (key : String) :
    findAllRowsByKey_ (getColumnValues_ table) key =
      matchRows (fun r => jsTrim r.key == jsTrim key) table 2 := by
  unfold findAllRowsByKey_ getColumnValues_
  rw [matchRows_map]
  have : (fun (r : Shortcut) => jsTrim (jsTrim r.key) == jsTrim key) =
      fun (r : Shortcut) => jsTrim r.key == jsTrim key := by
    funext r
    rw [jsTrim_idem]
  rw [this]

/-- Full computation of `upsertShortcut` on a payload passing validation. -/
theorem upsertShortcut_valid (table : List Shortcut) (payload : Payload)
    (now : String)
    (hv : (validateShortcutPayload_ (some payload)).ok = true) :
    upsertShortcut table (some payload) now =
      (⟨true,
        some (if decide
            (0 < (table.filter
              (fun r => jsTrim r.key == jsTrim payload.key)).length) = true
          then "updated" else "created"),
        (if decide
            (0 < (table.filter
              (fun r => jsTrim r.key == jsTrim payload.key)).length) = true
          then "Updated shortcut: " else "Created shortcut: ") ++
          jsTrim payload.key⟩,
       table.filter (fun r => ! (jsTrim r.key == jsTrim payload.key)) ++
         [mkUpsertRow payload now],
       Ev.lockAcquired ::
         (matchRows (fun r => jsTrim r.key == jsTrim payload.key)
           table 2).reverse.map Ev.deletedRow ++
         [Ev.appendedRow, Ev.lockReleased]) := by
  have hfind : findAllRowsByKey_ (getColumnValues_ table) (jsTrim payload.key) =
      matchRows (fun r => jsTrim r.key == jsTrim payload.key) table 2 := by
    rw [findAllRowsByKey_spec]
    have : (fun (r : Shortcut) => jsTrim r.key == jsTrim (jsTrim payload.key)) =
        fun (r : Shortcut) => jsTrim r.key == jsTrim payload.key := by
      funext r
      rw [jsTrim_idem]
    rw [this]
  simp only [upsertShortcut, hv]
  rw [if_neg (by simp)]
  rw [hfind, eraseRows_matchRows, matchRows_length]

/-- C3: after a key-validated upsert, the table holds exactly one row whose
trimmed key equals the payload's trimmed key — the appended row — even if
several rows with that key existed before, and the action reports whether a
match previously existed. -/
theorem c3_upsert_unique_key (table : List Shortcut) (payload : Payload)
    (now : String)
    (hv : (validateShortcutPayload_ (some payload)).ok = true) :
    (upsertShortcut table (some payload) now).fst.ok = true ∧
    (upsertShortcut table (some payload) now).snd.fst.filter
      (fun r => jsTrim r.key == jsTrim payload.key) = [mkUpsertRow payload now] ∧
    (upsertShortcut table (some payload) now).fst.action =
      some (if 0 < (table.filter
          (fun r => jsTrim r.key == jsTrim payload.key)).length
        then "updated" else "created") := by
  rw [upsertShortcut_valid table payload now hv]
  refine ⟨rfl, ?_, ?_⟩
  · rw [List.filter_append, List.filter_filter]
    have h1 : table.filter (fun a =>
        (jsTrim a.key == jsTrim payload.key) &&
        ! (jsTrim a.key == jsTrim payload.key)) = [] := by
      rw [List.filter_eq_nil_iff]
      intro a _
      simp
    rw [h1, List.nil_append]
    have h2 : (jsTrim (mkUpsertRow payload now).key == jsTrim payload.key) = true := by
      show (jsTrim (jsTrim payload.key) == jsTrim payload.key) = true
      rw [jsTrim_idem]
      exact beq_self_eq_true _
    simp [List.filter_cons, h2]
  · by_cases hex : 0 < (table.filter
        (fun r => jsTrim r.key == jsTrim payload.key)).length
    · simp [hex]
    · simp [hex]

/-- Witness for C3: a table holding two duplicate rows for key "a" plus an
unrelated row, upserted at key "a". -/
theorem c3_witness :
    (validateShortcutPayload_ (some ⟨"a", "xa", "", "", "", ""⟩)).ok = true ∧
    ((upsertShortcut [rowA, rowB, rowA] (some ⟨"a", "xa", "", "", "", ""⟩)
        "now").fst.ok = true ∧
      (upsertShortcut [rowA, rowB, rowA] (some ⟨"a", "xa", "", "", "", ""⟩)
        "now").snd.fst.filter
        (fun r => jsTrim r.key == jsTrim (Payload.key ⟨"a", "xa", "", "", "", ""⟩)) =
        [mkUpsertRow ⟨"a", "xa", "", "", "", ""⟩ "now"] ∧
      (upsertShortcut [rowA, rowB, rowA] (some ⟨"a", "xa", "", "", "", ""⟩)
        "now").fst.action =
        some (if 0 < ([rowA, rowB, rowA].filter
            (fun r => jsTrim r.key == jsTrim (Payload.key ⟨"a", "xa", "", "", "", ""⟩))).length
          then "updated" else "created")) :=
  ⟨rfl, c3_upsert_unique_key [rowA, rowB, rowA] ⟨"a", "xa", "", "", "", ""⟩
    "now" rfl⟩

/-- A payload failing validation (empty key). -/
def badPayload : Payload := ⟨"", "x", "", "", "", ""⟩

/-- C6 counterexample: `upsertShortcut` acquires the document lock before
running validation, so an invalid payload still produces a lock
acquisition — validation is not performed before lock acquisition. -/
theorem c6_counterexample :
    (validateShortcutPayload_ (some badPayload)).ok = false ∧
    (upsertShortcut [] (some badPayload) "now").snd.snd =
      [Ev.lockAcquired, Ev.lockReleased] ∧
    Ev.lockAcquired ∈ (upsertShortcut [] (some badPayload) "now").snd.snd :=
  ⟨rfl, rfl, by decide⟩

/-- C6 (amended): a payload failing validation is rejected inside the
already-acquired document lock but before any mutation — the validation
failure object is returned, the table is unchanged, and no row is deleted
or appended. -/
theorem c6_validation_before_mutation (table : List Shortcut)
    (payload? : Option Payload) (now : String)
    (hv : (validateShortcutPayload_ payload?).ok = false) :
    upsertShortcut table payload? now =
      (⟨false, none, (validateShortcutPayload_ payload?).message⟩, table,
        [Ev.lockAcquired, Ev.lockReleased]) := by
  cases payload? with
  | none => rfl
  | some p =>
    simp only [upsertShortcut, hv]
    rw [if_pos trivial]

/-- Witness for the amended C6 at a concrete invalid payload. -/
theorem c6_witness :
    (validateShortcutPayload_ (some badPayload)).ok = false ∧
    upsertShortcut [rowA] (some badPayload) "now" =
      (⟨false, none, (validateShortcutPayload_ (some badPayload)).message⟩,
        [rowA], [Ev.lockAcquired, Ev.lockReleased]) :=
  ⟨rfl, c6_validation_before_mutation [rowA] (some badPayload) "now" rfl⟩

/-! ## Delete by key (C7, C10) -/

/-- C7 counterexample: with zero matching rows, `deleteShortcut` returns a
result marked as failure (`ok = false`), not a valid non-error outcome, and
no removed count is reported anywhere in the result. -/
theorem c7_counterexample :
    deleteShortcut [] [] "a" =
      (⟨false, "Shortcut not found: a"⟩, [], [],
        [Ev.lockAcquired, Ev.lockReleased]) ∧
    (deleteShortcut [] [] "a").fst.ok = false :=
  ⟨rfl, rfl⟩

/-- C7 (amended): `deleteShortcut` removes every row whose trimmed key
matches, deleting the matched sheet rows in descending index order; the
success result carries only `ok` and a message (no removed count); with zero
matching rows it returns the structured failure
`{ok: false, message: 'Shortcut not found: key'}` and mutates nothing. -/
theorem c7_deleteShortcut_spec (table : List Shortcut) (fav : List FavRow)
    (key : String) (hk : jsTrim key ≠ "") :
    if (table.filter (fun r => jsTrim r.key == jsTrim key)).length = 0 then
      deleteShortcut table fav key =
        (⟨false, "Shortcut not found: " ++ jsTrim key⟩, table, fav,
          [Ev.lockAcquired, Ev.lockReleased])
    else
      (deleteShortcut table fav key).fst =
          ⟨true, "Deleted shortcut: " ++ jsTrim key⟩ ∧
      (deleteShortcut table fav key).snd.fst =
          table.filter (fun r => ! (jsTrim r.key == jsTrim key)) ∧
      (deleteShortcut table fav key).snd.snd.snd =
          Ev.lockAcquired ::
            (matchRows (fun r => jsTrim r.key == jsTrim key)
              table 2).reverse.map Ev.deletedRow ++ [Ev.lockReleased] ∧
      List.Chain' (fun a b => a > b)
        ((matchRows (fun r => jsTrim r.key == jsTrim key) table 2).reverse) := by
  have hfind : findAllRowsByKey_ (getColumnValues_ table) (jsTrim key) =
      matchRows (fun r => jsTrim r.key == jsTrim key) table 2 := by
    rw [findAllRowsByKey_spec]
    have : (fun (r : Shortcut) => jsTrim r.key == jsTrim (jsTrim key)) =
        fun (r : Shortcut) => jsTrim r.key == jsTrim key := by
      funext r
      rw [jsTrim_idem]
    rw [this]
  have hlen : (matchRows (fun r => jsTrim r.key == jsTrim key) table 2).length =
      (table.filter (fun r => jsTrim r.key == jsTrim key)).length :=
    matchRows_length _ table 2
  by_cases h0 : (table.filter (fun r => jsTrim r.key == jsTrim key)).length = 0
  · rw [if_pos h0]
    simp only [deleteShortcut, hfind]
    rw [if_neg hk, if_pos (by omega)]
  · rw [if_neg h0]
    simp only [deleteShortcut, hfind]
    rw [if_neg hk, if_neg (by omega)]
    refine ⟨rfl, eraseRows_matchRows _ table, rfl, ?_⟩
    rw [List.chain'_reverse]
    exact (matchRows_chain _ table 2).1

/-- Witness for the amended C7: deleting key "a" from a table with one
matching row. -/
theorem c7_witness :
    jsTrim "a" ≠ "" ∧
    (if (([rowA] : List Shortcut).filter
        (fun r => jsTrim r.key == jsTrim "a")).length = 0 then
      deleteShortcut [rowA] [] "a" =
        (⟨false, "Shortcut not found: " ++ jsTrim "a"⟩, [rowA], [],
          [Ev.lockAcquired, Ev.lockReleased])
    else
      (deleteShortcut [rowA] [] "a").fst =
          ⟨true, "Deleted shortcut: " ++ jsTrim "a"⟩ ∧
      (deleteShortcut [rowA] [] "a").snd.fst =
          ([rowA] : List Shortcut).filter
            (fun r => ! (jsTrim r.key == jsTrim "a")) ∧
      (deleteShortcut [rowA] [] "a").snd.snd.snd =
          Ev.lockAcquired ::
            (matchRows (fun r => jsTrim r.key == jsTrim "a")
              [rowA] 2).reverse.map Ev.deletedRow ++ [Ev.lockReleased] ∧
      List.Chain' (fun a b => a > b)
        ((matchRows (fun r => jsTrim r.key == jsTrim "a") [rowA] 2).reverse)) :=
  ⟨by decide, c7_deleteShortcut_spec [rowA] [] "a" (by decide)⟩

theorem removeFavoriteForAllUsers_clean (fav : List FavRow) (key : String)
    (hk : jsTrim key ≠ "") :
    (removeFavoriteForAllUsers_ fav key).filter
      (fun f => jsTrim f.key == jsTrim key) = [] := by
  simp only [removeFavoriteForAllUsers_]
  rw [if_neg hk]
  by_cases hlen : fav.length = 0
  · rw [if_pos hlen]
    rw [List.length_eq_zero] at hlen
    rw [hlen]
    rfl
  · rw [if_neg hlen, eraseRows_matchRows, List.filter_filter]
    rw [List.filter_eq_nil_iff]
    intro a _
    simp

/-- C10: after a successful `deleteShortcut`, the Favorites sheet holds no
row for the deleted key, for any user. -/
theorem c10_delete_cascades_favorites (table : List Shortcut)
    (fav : List FavRow) (key : String)
    (hok : (deleteShortcut table fav key).fst.ok = true) :
    (deleteShortcut table fav key).snd.snd.fst.filter
      (fun f => jsTrim f.key == jsTrim key) = [] := by
  by_cases hk : jsTrim key = ""
  · simp only [deleteShortcut] at hok
    rw [if_pos hk] at hok
    exact absurd hok (by simp)
  · by_cases h0 : (findAllRowsByKey_ (getColumnValues_ table)
        (jsTrim key)).length = 0
    · simp only [deleteShortcut] at hok
      rw [if_neg hk, if_pos h0] at hok
      exact absurd hok (by simp)
    · simp only [deleteShortcut]
      rw [if_neg hk, if_neg h0]
      show (removeFavoriteForAllUsers_ fav (jsTrim key)).filter
        (fun f => jsTrim f.key == jsTrim key) = []
      have h1 := removeFavoriteForAllUsers_clean fav (jsTrim key)
        (by rw [jsTrim_idem]; exact hk)
      have h2 : (fun (f : FavRow) => jsTrim f.key == jsTrim (jsTrim key)) =
          fun (f : FavRow) => jsTrim f.key == jsTrim key := by
        funext f
        rw [jsTrim_idem]
      rw [h2] at h1
      exact h1

/-- Witness for C10: deleting "a" removes the favorite rows of both users,
including one stored with surrounding whitespace. -/
theorem c10_witness :
    (deleteShortcut [rowA] [⟨"u", "a", "t"⟩, ⟨"v", " a ", "t2"⟩]
      "a").fst.ok = true ∧
    (deleteShortcut [rowA] [⟨"u", "a", "t"⟩, ⟨"v", " a ", "t2"⟩]
      "a").snd.snd.fst.filter (fun f => jsTrim f.key == jsTrim "a") = [] :=
  ⟨by decide,
   c10_delete_cascades_favorites [rowA] [⟨"u", "a", "t"⟩, ⟨"v", " a ", "t2"⟩]
     "a" (by decide)⟩

/-! ## Favorite force_add idempotence (C8) -/

theorem forceAdd_eq_zero (fav : List FavRow) (u key now : String)
    (hu : u ≠ "") (hk : jsTrim key ≠ "")
    (h0 : (fav.filter (fun f => jsTrim f.userEmail == jsTrim u &&
      jsTrim f.key == jsTrim key)).length = 0) :
    updateFavoriteStatus_ fav u key .force_add now =
      (⟨"added", jsTrim key, ""⟩, fav ++ [⟨u, jsTrim key, now⟩]) := by
  have hlen := matchRows_length
    (fun f : FavRow => jsTrim f.userEmail == jsTrim u &&
      jsTrim f.key == jsTrim key) fav 2
  have e1 : decide ((matchRows (fun f : FavRow =>
      jsTrim f.userEmail == jsTrim u && jsTrim f.key == jsTrim key)
      fav 2).length > 0) = false :=
    decide_eq_false (by omega)
  simp only [updateFavoriteStatus_]
  rw [if_neg hu, if_neg hk]
  rw [e1]
  simp

theorem forceAdd_eq_one (fav : List FavRow) (u key now : String)
    (hu : u ≠ "") (hk : jsTrim key ≠ "")
    (h1 : (fav.filter (fun f => jsTrim f.userEmail == jsTrim u &&
      jsTrim f.key == jsTrim key)).length = 1) :
    updateFavoriteStatus_ fav u key .force_add now =
      (⟨"added", jsTrim key, ""⟩, fav) := by
  have hlen := matchRows_length
    (fun f : FavRow => jsTrim f.userEmail == jsTrim u &&
      jsTrim f.key == jsTrim key) fav 2
  have e1 : decide ((matchRows (fun f : FavRow =>
      jsTrim f.userEmail == jsTrim u && jsTrim f.key == jsTrim key)
      fav 2).length > 0) = true :=
    decide_eq_true (by omega)
  have e2 : decide ((matchRows (fun f : FavRow =>
      jsTrim f.userEmail == jsTrim u && jsTrim f.key == jsTrim key)
      fav 2).length > 1) = false :=
    decide_eq_false (by omega)
  simp only [updateFavoriteStatus_]
  rw [if_neg hu, if_neg hk]
  rw [e1, e2]
  simp

theorem forceAdd_eq_many (fav : List FavRow) (u key now : String)
    (hu : u ≠ "") (hk : jsTrim key ≠ "")
    (h2 : 2 ≤ (fav.filter (fun f => jsTrim f.userEmail == jsTrim u &&
      jsTrim f.key == jsTrim key)).length) :
    updateFavoriteStatus_ fav u key .force_add now =
      (⟨"added", jsTrim key, ""⟩,
       fav.filter (fun f => ! (jsTrim f.userEmail == jsTrim u &&
         jsTrim f.key == jsTrim key)) ++ [⟨u, jsTrim key, now⟩]) := by
  have hlen := matchRows_length
    (fun f : FavRow => jsTrim f.userEmail == jsTrim u &&
      jsTrim f.key == jsTrim key) fav 2
  have e1 : decide ((matchRows (fun f : FavRow =>
      jsTrim f.userEmail == jsTrim u && jsTrim f.key == jsTrim key)
      fav 2).length > 0) = true :=
    decide_eq_true (by omega)
  have e2 : decide ((matchRows (fun f : FavRow =>
      jsTrim f.userEmail == jsTrim u && jsTrim f.key == jsTrim key)
      fav 2).length > 1) = true :=
    decide_eq_true (by omega)
  simp only [updateFavoriteStatus_]
  rw [if_neg hu, if_neg hk]
  rw [e1, e2]
  simp only [Bool.true_and, if_pos trivial, Bool.and_self]
  rw [eraseRows_matchRows]

theorem forceAdd_post_count (fav : List FavRow) (u key now : String)
    (hu : u ≠ "") (hk : jsTrim key ≠ "") :
    (((updateFavoriteStatus_ fav u key .force_add now).snd).filter
      (fun f => jsTrim f.userEmail == jsTrim u &&
        jsTrim f.key == jsTrim key)).length = 1 ∧
    (updateFavoriteStatus_ fav u key .force_add now).fst.status = "added" := by
  have hsingle : List.filter (fun (f : FavRow) =>
      jsTrim f.userEmail == jsTrim u && jsTrim f.key == jsTrim key)
      [⟨u, jsTrim key, now⟩] = [⟨u, jsTrim key, now⟩] := by
    simp [List.filter_singleton, jsTrim_idem]
  rcases Nat.lt_or_ge (fav.filter (fun f => jsTrim f.userEmail == jsTrim u &&
      jsTrim f.key == jsTrim key)).length 2 with hlt | hge
  · interval_cases h : (fav.filter (fun f => jsTrim f.userEmail == jsTrim u &&
        jsTrim f.key == jsTrim key)).length
    · rw [forceAdd_eq_zero fav u key now hu hk h]
      refine ⟨?_, rfl⟩
      rw [List.filter_append, List.length_eq_zero.mp h, List.nil_append,
        hsingle]
      rfl
    · rw [forceAdd_eq_one fav u key now hu hk h]
      exact ⟨h, rfl⟩
  · rw [forceAdd_eq_many fav u key now hu hk hge]
    refine ⟨?_, rfl⟩
    rw [List.filter_append, List.filter_filter]
    have hnil : fav.filter (fun a =>
        (jsTrim a.userEmail == jsTrim u && jsTrim a.key == jsTrim key) &&
        ! (jsTrim a.userEmail == jsTrim u && jsTrim a.key == jsTrim key)) = [] := by
      rw [List.filter_eq_nil_iff]
      intro a _
      simp
    rw [hnil, List.nil_append, hsingle]
    rfl

/-- C8: two successive force_add calls for the same user and key leave
exactly one matching favorite row — also when the sheet held several
duplicates beforehand — the second call changes nothing and reports
"added" (one of the allowed "added"/"unchanged"), never duplicating. -/
theorem c8_forceAdd_idempotent (fav : List FavRow) (u key now1 now2 : String)
    (hu : u ≠ "") (hk : jsTrim key ≠ "") :
    ((updateFavoriteStatus_
        ((updateFavoriteStatus_ fav u key .force_add now1).snd)
        u key .force_add now2).snd.filter
      (fun f => jsTrim f.userEmail == jsTrim u &&
        jsTrim f.key == jsTrim key)).length = 1 ∧
    (updateFavoriteStatus_
        ((updateFavoriteStatus_ fav u key .force_add now1).snd)
        u key .force_add now2).snd =
      (updateFavoriteStatus_ fav u key .force_add now1).snd ∧
    ((updateFavoriteStatus_
        ((updateFavoriteStatus_ fav u key .force_add now1).snd)
        u key .force_add now2).fst.status = "added" ∨
     (updateFavoriteStatus_
        ((updateFavoriteStatus_ fav u key .force_add now1).snd)
        u key .force_add now2).fst.status = "unchanged") := by
  have h1 := forceAdd_post_count fav u key now1 hu hk
  have h2 := forceAdd_eq_one
    ((updateFavoriteStatus_ fav u key .force_add now1).snd) u key now2 hu hk h1.1
  rw [h2]
  exact ⟨h1.1, rfl, Or.inl rfl⟩

/-- Witness for C8: a Favorites sheet with two duplicate rows for
`("u", "a")` plus another user's row. -/
theorem c8_witness :
    ("u" : String) ≠ "" ∧ jsTrim "a" ≠ "" ∧
    (((updateFavoriteStatus_
        ((updateFavoriteStatus_
          [⟨"u", "a", "t1"⟩, ⟨"u", "a", "t2"⟩, ⟨"v", "a", "t3"⟩]
          "u" "a" .force_add "n1").snd)
        "u" "a" .force_add "n2").snd.filter
      (fun f => jsTrim f.userEmail == jsTrim "u" &&
        jsTrim f.key == jsTrim "a")).length = 1 ∧
    (updateFavoriteStatus_
        ((updateFavoriteStatus_
          [⟨"u", "a", "t1"⟩, ⟨"u", "a", "t2"⟩, ⟨"v", "a", "t3"⟩]
          "u" "a" .force_add "n1").snd)
        "u" "a" .force_add "n2").snd =
      (updateFavoriteStatus_
        [⟨"u", "a", "t1"⟩, ⟨"u", "a", "t2"⟩, ⟨"v", "a", "t3"⟩]
        "u" "a" .force_add "n1").snd ∧
    ((updateFavoriteStatus_
        ((updateFavoriteStatus_
          [⟨"u", "a", "t1"⟩, ⟨"u", "a", "t2"⟩, ⟨"v", "a", "t3"⟩]
          "u" "a" .force_add "n1").snd)
        "u" "a" .force_add "n2").fst.status = "added" ∨
     (updateFavoriteStatus_
        ((updateFavoriteStatus_
          [⟨"u", "a", "t1"⟩, ⟨"u", "a", "t2"⟩, ⟨"v", "a", "t3"⟩]
          "u" "a" .force_add "n1").snd)
        "u" "a" .force_add "n2").fst.status = "unchanged")) :=
  ⟨by decide, by decide,
   c8_forceAdd_idempotent [⟨"u", "a", "t1"⟩, ⟨"u", "a", "t2"⟩, ⟨"v", "a", "t3"⟩]
     "u" "a" "n1" "n2" (by decide) (by decide)⟩

end TEM
